import Mathlib

/-!
Formal model of the workforce-dashboard data pipeline of `HR_Visual.py`:
the wide-to-long reshape of worker-count columns (melt, compound-name
split, numeric coercion), the geography / worker / industry filter
chain with its single emptiness short-circuit, the percentage
transform, and the grouped aggregation views (industry view,
investment-score view, dependency-risk view).

Numeric cell values are modelled as exact rationals: a wide-table cell
is an `Option ℚ`, where `none` stands for a value that numeric
coercion turns into a missing value.  Floating-point "within
tolerance" statements of the specification become exact equalities
over `ℚ`.  A measure-column name that does not split into three parts
null-fills the missing metadata fields, the defensive policy the
specification leaves open.
-/

namespace HRVisual

/-- Identifier-column values carried through the reshape (the
`id_cols` of `HR_Visual.py`): State, District, Industry_Category. -/
structure IdPart where
  state : String
  district : String
  industry : String
deriving DecidableEq, Repr

/-- One row of the wide input table: identifier values plus a
numeric-or-missing cell for each measure-column name. -/
structure WideRow where
  ids : IdPart
  cell : String → Option ℚ

/-- Python `c.startswith(("Main_Workers", "Marginal_Workers"))`,
the measure-column test of line 34. -/
def isWorkerCol (c : String) : Bool :=
  "Main_Workers".data.isPrefixOf c.data || "Marginal_Workers".data.isPrefixOf c.data

/-- `worker_cols` (line 34): the measure columns of the wide table. -/
def worker_cols (cols : List String) : List String := cols.filter isWorkerCol

/-- One melted record: `long_data` right after `data.melt` (lines
40-45), before metadata split and numeric coercion. -/
structure MeltRec where
  ids : IdPart
  var : String
  count : Option ℚ

/-- `data.melt` over the measure columns (lines 40-45): one record per
measure column per wide row, stacked column-major as pandas does. -/
def melt (cols : List String) (rows : List WideRow) : List MeltRec :=
  (worker_cols cols).flatMap fun c => rows.map fun r => ⟨r.ids, c, r.cell c⟩

/-- Split a character list at each dash, the semantics of Python
`str.split("-")` used on line 50. -/
def splitAux (cur : List Char) : List Char → List (List Char)
  | [] => [cur.reverse]
  | c :: cs => if c = '-' then cur.reverse :: splitAux [] cs else splitAux (c :: cur) cs

/-- `Variable.str.split("-")` (line 50), as a list of parts. -/
def splitOnDash (s : String) : List String :=
  (splitAux [] s.data).map String.mk

/-- The worker-class remap of lines 52-55: unrecognized tokens pass
through unchanged. -/
def mapWorkerType (t : String) : String :=
  if t = "Main_Workers" then "Main"
  else if t = "Marginal_Workers" then "Marginal"
  else t

/-- The gender remap of lines 57-61: unrecognized tokens pass through
unchanged. -/
def mapGender (g : String) : String :=
  if g = "Males" then "Male"
  else if g = "Females" then "Female"
  else if g = "Persons" then "Total"
  else g

/-- One row of the long table (a WorkforceObservation).  The metadata
fields are `Option`s: the expanding split null-fills parts a
measure-column name does not have. -/
structure Obs where
  ids : IdPart
  workerType : Option String
  area : Option String
  gender : Option String
  count : ℚ
deriving DecidableEq, Repr

/-- Metadata extraction and numeric coercion for one melted record
(lines 50-69): split the compound column name, remap the worker-class
and gender tokens, keep the area token unchanged, and keep the record
only if its Count cell is numeric. -/
def toObs (m : MeltRec) : Option Obs :=
  match m.count with
  | none => none
  | some q =>
    let parts := splitOnDash m.var
    some ⟨m.ids, (parts[0]?).map mapWorkerType, parts[1]?,
          (parts[2]?).map mapGender, q⟩

/-- `long_data` after lines 40-69: melt, split the metadata, coerce
Count to numeric and drop the records whose Count fails to parse. -/
def long_data (cols : List String) (rows : List WideRow) : List Obs :=
  (melt cols rows).filterMap toObs

/-- The State membership filter (line 119). -/
def stateFilter (ss : List String) (rows : List Obs) : List Obs :=
  rows.filter fun o => decide (o.ids.state ∈ ss)

/-- The District filter (lines 121-124).  The guard is Python
truthiness of `selected_districts`: `None` (State-wise view) and the
empty list both skip the stage entirely. -/
def districtFilter (sd : Option (List String)) (rows : List Obs) : List Obs :=
  match sd with
  | none => rows
  | some ds =>
    if ds = [] then rows else rows.filter fun o => decide (o.ids.district ∈ ds)

/-- pandas `==` on a possibly-null column: a null cell never compares
equal to anything, not even to another null. -/
def pdEq (a : Option String) (b : Option String) : Bool :=
  match a, b with
  | some x, some y => x == y
  | _, _ => false

/-- The combined Worker_Type / Area / Gender exact-match filter of
lines 143-147. -/
def catFilter (wt ar g : Option String) (rows : List Obs) : List Obs :=
  rows.filter fun o => pdEq o.workerType wt && pdEq o.area ar && pdEq o.gender g

/-- The Industry multiselect filter (lines 158-160). -/
def industryFilter (cl : List String) (rows : List Obs) : List Obs :=
  rows.filter fun o => decide (o.ids.industry ∈ cl)

/-- Result of the filter pipeline: either the warning-and-stop
no-data short circuit of lines 126-128, or the final filtered table. -/
inductive PipeResult where
  | noData : PipeResult
  | ok : List Obs → PipeResult
deriving DecidableEq, Repr

/-- `filtered_data` as computed by lines 119-160: state filter,
truthiness-guarded district filter, the single emptiness check, then
the worker and industry filters. -/
def filtered_data (rows : List Obs) (ss : List String) (sd : Option (List String))
    (wt ar g : Option String) (cl : List String) : PipeResult :=
  let geo := districtFilter sd (stateFilter ss rows)
  if geo = [] then .noData
  else .ok (industryFilter cl (catFilter wt ar g geo))

/-- The grand total of the filtered set (line 166). -/
def grandTotal (rows : List Obs) : ℚ := (rows.map Obs.count).sum

/-- The percentage transform (line 167): each row's derived Value,
with no guard on a zero grand total. -/
def percentValues (rows : List Obs) : List ℚ :=
  rows.map fun o => o.count / grandTotal rows * 100

/-- The distinct values of a grouping key, in first-appearance order:
the group keys of a pandas `groupby`. -/
def groupKeys {κ : Type} [DecidableEq κ] (key : Obs → κ) (rows : List Obs) : List κ :=
  (rows.map key).dedup

/-- A `groupby(key)` followed by summing a value column: one
(key, summed value) pair per distinct key. -/
def groupSum {κ : Type} [DecidableEq κ] (key : Obs → κ) (v : Obs → ℚ)
    (rows : List Obs) : List (κ × ℚ) :=
  (groupKeys key rows).map fun k =>
    (k, ((rows.filter fun o => decide (key o = k)).map v).sum)

/-- `industry_df` (lines 190-195): group the filtered set by
Industry_Category, sum the active value column, sort descending by the
summed value. -/
def industry_df (v : Obs → ℚ) (rows : List Obs) : List (String × ℚ) :=
  (groupSum (fun o => o.ids.industry) v rows).mergeSort fun a b => decide (b.2 ≤ a.2)

/-- One row of the investment view. -/
structure InvestRow where
  district : String
  totalWorkers : ℚ
  industryCount : ℕ
  investmentScore : ℚ
deriving DecidableEq, Repr

/-- `invest_df` with its Investment_Score column (lines 264-275): per
District, the summed Count, the distinct-industry count, and their
quotient, computed with no explicit zero guard. -/
def invest_df (rows : List Obs) : List InvestRow :=
  (groupKeys (fun o => o.ids.district) rows).map fun d =>
    let grp := rows.filter fun o => decide (o.ids.district = d)
    let tw := (grp.map Obs.count).sum
    let ic := ((grp.map fun o => o.ids.industry).dedup).length
    ⟨d, tw, ic, tw / (ic : ℚ)⟩

/-- One row of the dependency-risk view. -/
structure DepRow where
  district : String
  industry : String
  count : ℚ
  share : ℚ
deriving DecidableEq, Repr

/-- The district total used by the grouped `transform` of lines
337-338: the sum of the aggregated counts of the district's rows in
the (District, Industry_Category) group table. -/
def depDistrictTotal (rows : List Obs) (d : String) : ℚ :=
  (((groupSum (fun o => (o.ids.district, o.ids.industry)) Obs.count rows).filter
    fun e => decide (e.1.1 = d)).map Prod.snd).sum

/-- `dep_df` with its Share column (lines 331-338): group by
(District, Industry_Category), sum Count, and divide each group's
count by its district total, with no guard on a zero total. -/
def dep_df (rows : List Obs) : List DepRow :=
  (groupSum (fun o => (o.ids.district, o.ids.industry)) Obs.count rows).map fun e =>
    ⟨e.1.1, e.1.2, e.2, e.2 / depDistrictTotal rows e.1.1⟩

/-- `risk_df` (line 340): the dependency rows whose Share exceeds the
fixed 0.6 threshold. -/
def risk_df (rows : List Obs) : List DepRow :=
  (dep_df rows).filter fun r => decide (r.share > 3 / 5)

/-! Concrete tables used to evaluate the model at specific inputs. -/

/-- A wide table whose single measure column carries the unrecognized
gender token `Boys`, which the reshaper passes through unchanged. -/
def cexCols : List String := ["State", "Main_Workers-Rural-Boys"]

/-- One wide row for `cexCols`, with a parseable count of 5. -/
def cexRows : List WideRow :=
  [⟨⟨"Tamilnadu", "Chennai", "Textiles"⟩,
    fun c => if c = "Main_Workers-Rural-Boys" then some 5 else none⟩]

/-- A wide table with a single well-formed measure column. -/
def wfCols : List String := ["State", "Main_Workers-Rural-Males"]

/-- One wide row for `wfCols`, with a parseable count of 3. -/
def wfRows : List WideRow :=
  [⟨⟨"Tamilnadu", "Chennai", "Textiles"⟩,
    fun c => if c = "Main_Workers-Rural-Males" then some 3 else none⟩]

/-- The long row the reshaper produces from `wfRows`. -/
def wfObs : Obs :=
  ⟨⟨"Tamilnadu", "Chennai", "Textiles"⟩, some "Main", some "Rural", some "Male", 3⟩

/-- A long row whose Count is 0: a legal observation that makes every
unguarded total-division degenerate. -/
def zeroObs : Obs :=
  ⟨⟨"Tamilnadu", "Chennai", "Textiles"⟩, some "Main", some "Rural", some "Male", 0⟩

/-- A long row with Count 25. -/
def obsA : Obs :=
  ⟨⟨"Tamilnadu", "Chennai", "Textiles"⟩, some "Main", some "Rural", some "Male", 25⟩

/-- A long row with Count 75 in a second industry. -/
def obsB : Obs :=
  ⟨⟨"Tamilnadu", "Chennai", "Mining"⟩, some "Main", some "Rural", some "Male", 75⟩

/-- The investment-view row the model produces for the district of
`obsA` and `obsB`. -/
def investRowW : InvestRow := ⟨"Chennai", 100, 2, 50⟩

/-! General lemmas about the pipeline's list combinators. -/

/-- Splitting a sum along a Boolean predicate. -/
theorem sum_filter_add_sum_filter_not {α : Type} (p : α → Bool) (v : α → ℚ) (l : List α) :
    ((l.filter p).map v).sum + ((l.filter fun a => !p a).map v).sum = (l.map v).sum := by
  induction l with
  | nil => simp
  | cons a l ih =>
    by_cases h : p a = true
    · simp only [List.filter_cons, h, if_pos, Bool.not_true, if_neg, List.map_cons,
        List.sum_cons, Bool.false_eq_true, ite_false, ite_true]
      rw [← ih]; ring
    · have h' : p a = false := by simpa using h
      simp only [List.filter_cons, h', Bool.not_false, List.map_cons, List.sum_cons,
        Bool.false_eq_true, ite_false, ite_true]
      rw [← ih]; ring

/-- Summing fiberwise over a duplicate-free list of keys covering every
row recovers the total sum. -/
theorem sum_fibers {α κ : Type} [DecidableEq κ] (key : α → κ) (v : α → ℚ) :
    ∀ (ks : List κ) (rows : List α), ks.Nodup → (∀ r ∈ rows, key r ∈ ks) →
      (ks.map fun k => ((rows.filter fun o => decide (key o = k)).map v).sum).sum
        = (rows.map v).sum := by
  intro ks
  induction ks with
  | nil =>
    intro rows _ hcov
    have hrows : rows = [] := by
      cases rows with
      | nil => rfl
      | cons a l => exact absurd (hcov a (by simp)) (by simp)
    simp [hrows]
  | cons k ks ih =>
    intro rows hnd hcov
    have hk : k ∉ ks := (List.nodup_cons.1 hnd).1
    set B := rows.filter fun o => !decide (key o = k) with hB
    have hfib : ∀ k' ∈ ks,
        ((rows.filter fun o => decide (key o = k')).map v).sum
          = ((B.filter fun o => decide (key o = k')).map v).sum := by
      intro k' hk'
      have hkk : k' ≠ k := fun h => hk (h ▸ hk')
      rw [hB, List.filter_filter]
      have hfe : (rows.filter fun a => decide (key a = k') && !decide (key a = k))
          = rows.filter fun o => decide (key o = k') := by
        apply List.filter_congr
        intro o _
        by_cases h : key o = k'
        · simp [h, hkk]
        · simp [h]
      rw [hfe]
    have hcovB : ∀ r ∈ B, key r ∈ ks := by
      intro r hr
      rw [hB] at hr
      obtain ⟨hrm, hrk⟩ := List.mem_filter.1 hr
      have : key r ≠ k := by simpa using hrk
      have := hcov r hrm
      simp only [List.mem_cons] at this
      exact this.resolve_left ‹key r ≠ k›
    simp only [List.map_cons, List.sum_cons]
    rw [List.map_congr_left hfib, ih B (List.nodup_cons.1 hnd).2 hcovB]
    rw [hB]
    exact sum_filter_add_sum_filter_not (fun o => decide (key o = k)) v rows

/-- The values of a grouped sum add up to the total of the value column. -/
theorem groupSum_sum {κ : Type} [DecidableEq κ] (key : Obs → κ) (v : Obs → ℚ)
    (rows : List Obs) :
    ((groupSum key v rows).map Prod.snd).sum = (rows.map v).sum := by
  unfold groupSum groupKeys
  rw [List.map_map]
  exact sum_fibers key v _ rows (List.nodup_dedup _)
    (fun r hr => List.mem_dedup.2 (List.mem_map_of_mem key hr))

/-- Dividing every summand by a fixed rational divides the sum. -/
theorem sum_map_div {α : Type} (g : α → ℚ) (T : ℚ) (l : List α) :
    (l.map fun a => g a / T).sum = (l.map g).sum / T := by
  induction l with
  | nil => simp
  | cons a l ih => simp only [List.map_cons, List.sum_cons, ih]; ring

/-- Dividing every summand by a fixed rational and rescaling by 100
does the same to the sum. -/
theorem sum_map_div_mul {α : Type} (g : α → ℚ) (T : ℚ) (l : List α) :
    (l.map fun a => g a / T * 100).sum = (l.map g).sum / T * 100 := by
  induction l with
  | nil => simp
  | cons a l ih => simp only [List.map_cons, List.sum_cons, ih]; ring

/-- The melt emits one record per measure column per wide row. -/
theorem melt_length (cols : List String) (rows : List WideRow) :
    (melt cols rows).length = (worker_cols cols).length * rows.length := by
  unfold melt
  generalize worker_cols cols = ws
  induction ws with
  | nil => simp
  | cons c cs ih => simp [ih, Nat.succ_mul, Nat.add_comm]

/-- A melted record survives the reshape exactly when its Count parses. -/
theorem length_filterMap_toObs (l : List MeltRec) :
    (l.filterMap toObs).length + (l.filter fun m => m.count.isNone).length = l.length := by
  induction l with
  | nil => simp
  | cons a l ih =>
    cases h : a.count with
    | none =>
      simp [List.filterMap_cons, toObs, h, List.filter_cons]
      omega
    | some q =>
      simp [List.filterMap_cons, toObs, h, List.filter_cons]
      omega

/-! Claim theorems. -/

/-- C3: for every input wide table, the reshaper's output row count
equals the input row count times the number of measure columns (those
whose name starts with Main_Workers or Marginal_Workers), minus the
number of emitted records whose Count value fails numeric parsing;
those records are silently dropped by the total function `long_data`,
never reported as an error. -/
theorem reshape_row_count (cols : List String) (rows : List WideRow) :
    (long_data cols rows).length
      = rows.length * (worker_cols cols).length
        - ((melt cols rows).filter fun m => m.count.isNone).length := by
  have h1 := length_filterMap_toObs (melt cols rows)
  have h2 := melt_length cols rows
  unfold long_data
  rw [Nat.mul_comm]
  omega

/-- C4: the pipeline emits the no-data short circuit exactly when the
set produced by the geography (state and district) filter is empty; in
that case the result is `noData` — a user-facing signal carrying no
further-filtered or aggregated table — and otherwise the worker and
industry filters run on the non-empty geography set. -/
theorem geo_empty_short_circuit (rows : List Obs) (ss : List String)
    (sd : Option (List String)) (wt ar g : Option String) (cl : List String) :
    filtered_data rows ss sd wt ar g cl = .noData
      ↔ districtFilter sd (stateFilter ss rows) = [] := by
  unfold filtered_data
  by_cases h : districtFilter sd (stateFilter ss rows) = [] <;> simp [h]

/-- C5: every filter stage (state, district, worker-type/area/gender,
industry) returns a sublist of its input working set — so an
additional filter never increases the row count, and every surviving
row is one of the input rows, its identity and Count unchanged. -/
theorem filter_chain_narrowing (l : List Obs) (ss : List String)
    (sd : Option (List String)) (wt ar g : Option String) (cl : List String) :
    (List.Sublist (stateFilter ss l) l ∧ (stateFilter ss l).length ≤ l.length)
    ∧ (List.Sublist (districtFilter sd l) l ∧ (districtFilter sd l).length ≤ l.length)
    ∧ (List.Sublist (catFilter wt ar g l) l ∧ (catFilter wt ar g l).length ≤ l.length)
    ∧ (List.Sublist (industryFilter cl l) l
        ∧ (industryFilter cl l).length ≤ l.length) := by
  have hd : List.Sublist (districtFilter sd l) l := by
    unfold districtFilter
    cases sd with
    | none => exact List.Sublist.refl l
    | some ds =>
      by_cases h : ds = []
      · simp only [if_pos h]
        exact List.Sublist.refl l
      · simp only [if_neg h]
        exact List.filter_sublist l
  exact ⟨⟨List.filter_sublist l, (List.filter_sublist l).length_le⟩,
    ⟨hd, hd.length_le⟩,
    ⟨List.filter_sublist l, (List.filter_sublist l).length_le⟩,
    ⟨List.filter_sublist l, (List.filter_sublist l).length_le⟩⟩

/-- C9: the district filter stage is skipped entirely — the working
set passes through unchanged — when the selection is `none`
(State-wise view) or the empty list (District-wise view with nothing
selected); it narrows by district membership only for a non-empty
selected list. -/
theorem district_skip_empty (rows : List Obs) (ds : List String) (h : ds ≠ []) :
    districtFilter none rows = rows
    ∧ districtFilter (some []) rows = rows
    ∧ districtFilter (some ds) rows
        = rows.filter fun o => decide (o.ids.district ∈ ds) := by
  refine ⟨rfl, rfl, ?_⟩
  simp [districtFilter, h]

/-- Witness for C9 at a concrete one-row table and the district list
`["Chennai"]`. -/
theorem district_skip_empty_witness :
    districtFilter none [obsA] = [obsA]
    ∧ districtFilter (some []) [obsA] = [obsA]
    ∧ districtFilter (some ["Chennai"]) [obsA]
        = [obsA].filter fun o => decide (o.ids.district ∈ ["Chennai"]) :=
  district_skip_empty [obsA] ["Chennai"] (by simp)

/-- C10: the emptiness short circuit is checked only after the
geography filter; an empty industry selection still yields an `ok`
result with an empty table — no no-data signal — and on that empty
table the percentage grand total is 0, so the unguarded percentage
division produces no values at all. -/
theorem late_empty_no_signal (rows : List Obs) (ss : List String)
    (sd : Option (List String)) (wt ar g : Option String)
    (h : districtFilter sd (stateFilter ss rows) ≠ []) :
    filtered_data rows ss sd wt ar g [] = .ok []
    ∧ grandTotal [] = 0
    ∧ percentValues [] = [] := by
  refine ⟨?_, rfl, rfl⟩
  unfold filtered_data
  simp only [if_neg h]
  congr 1
  simp [industryFilter]

/-- C6: the industry view on the Count value column groups the
filtered set by Industry_Category, each group carrying the sum of its
rows' Counts, is sorted descending by the summed value, and conserves
the total: its values sum to the filtered set's total Count (exact
over the rational model). -/
theorem industry_view_conserves (rows : List Obs) :
    ((industry_df Obs.count rows).map Prod.snd).sum = (rows.map Obs.count).sum
    ∧ (industry_df Obs.count rows).Pairwise (fun a b => b.2 ≤ a.2)
    ∧ ∀ e ∈ industry_df Obs.count rows,
        e.2 = ((rows.filter fun o => decide (o.ids.industry = e.1)).map Obs.count).sum := by
  refine ⟨?_, ?_, ?_⟩
  · have hperm : List.Perm (industry_df Obs.count rows)
        (groupSum (fun o => o.ids.industry) Obs.count rows) :=
      List.mergeSort_perm _ _
    rw [(hperm.map Prod.snd).sum_eq]
    exact groupSum_sum _ _ rows
  · have hs : (industry_df Obs.count rows).Pairwise
        (fun a b => decide (b.2 ≤ a.2) = true) := by
      apply List.sorted_mergeSort
      · intro a b c h1 h2
        simp only [decide_eq_true_eq] at h1 h2 ⊢
        exact le_trans h2 h1
      · intro a b
        simp only [Bool.or_eq_true, decide_eq_true_eq]
        exact le_total b.2 a.2
    exact hs.imp (by simp)
  · intro e he
    have hmem : e ∈ groupSum (fun o => o.ids.industry) Obs.count rows :=
      List.mem_mergeSort.1 he
    unfold groupSum at hmem
    obtain ⟨k, _, rfl⟩ := List.mem_map.1 hmem
    rfl

/-- Witness for C6's per-group clause at a concrete two-industry set:
the Mining entry of the industry view carries the summed Count of the
Mining rows. -/
theorem industry_view_conserves_witness :
    ("Mining", (75 : ℚ)) ∈ industry_df Obs.count [obsA, obsB]
    ∧ ("Mining", (75 : ℚ)).2
        = (([obsA, obsB].filter fun o =>
            decide (o.ids.industry = ("Mining", (75 : ℚ)).1)).map Obs.count).sum :=
  have hmem : ("Mining", (75 : ℚ)) ∈ industry_df Obs.count [obsA, obsB] := by
    unfold industry_df
    rw [List.mem_mergeSort]
    simp [groupSum, groupKeys, obsA, obsB]
  ⟨hmem, (industry_view_conserves [obsA, obsB]).2.2 _ hmem⟩

/-- C1: every row of the investment view has a positive
Industry_Count — each District group is non-empty and every row
carries an Industry_Category, so the Industry_Count = 0 case that
would make Investment_Score undefined cannot arise and no
division-by-zero fault can propagate — and its Investment_Score,
Total_Workers and Industry_Count are exactly the quotient, group sum
and distinct-industry count of its District group. -/
theorem invest_score_def (rows : List Obs) (e : InvestRow) (he : e ∈ invest_df rows) :
    0 < e.industryCount
    ∧ e.investmentScore = e.totalWorkers / (e.industryCount : ℚ)
    ∧ e.totalWorkers
        = ((rows.filter fun o => decide (o.ids.district = e.district)).map Obs.count).sum
    ∧ e.industryCount
        = (((rows.filter fun o => decide (o.ids.district = e.district)).map
            fun o => o.ids.industry).dedup).length := by
  unfold invest_df at he
  obtain ⟨d, hd, rfl⟩ := List.mem_map.1 he
  refine ⟨?_, rfl, rfl, rfl⟩
  unfold groupKeys at hd
  obtain ⟨o, ho, hod⟩ := List.mem_map.1 (List.mem_dedup.1 hd)
  have hfo : o ∈ rows.filter fun x => decide (x.ids.district = d) :=
    List.mem_filter.2 ⟨ho, by simp [hod]⟩
  have h2 : o.ids.industry ∈ ((rows.filter fun x => decide (x.ids.district = d)).map
      fun x => x.ids.industry) := List.mem_map_of_mem _ hfo
  have h3 := List.mem_dedup.2 h2
  exact List.length_pos.2 (fun hnil => by simp [hnil] at h3)

/-- Witness for C1 at the two-row, one-district, two-industry table:
the Chennai group has Total_Workers 100, Industry_Count 2 and
Investment_Score 50. -/
theorem invest_score_def_witness :
    0 < investRowW.industryCount
    ∧ investRowW.investmentScore = investRowW.totalWorkers / (investRowW.industryCount : ℚ)
    ∧ investRowW.totalWorkers
        = (([obsA, obsB].filter fun o =>
            decide (o.ids.district = investRowW.district)).map Obs.count).sum
    ∧ investRowW.industryCount
        = ((([obsA, obsB].filter fun o =>
            decide (o.ids.district = investRowW.district)).map
            fun o => o.ids.industry).dedup).length :=
  invest_score_def [obsA, obsB] investRowW
    (by simp [invest_df, groupKeys, obsA, obsB, investRowW]; norm_num)

/-- C7 (amended): when the grand total of the filtered set is nonzero,
the derived percentage Values sum to exactly 100; the original claim's
hypothesis — any non-empty filtered set — does not suffice, because a
non-empty set whose Counts sum to 0 hits the unguarded division (see
the counterexample). -/
theorem percentage_sums_to_100 (rows : List Obs) (h : grandTotal rows ≠ 0) :
    (percentValues rows).sum = 100 := by
  unfold percentValues
  rw [sum_map_div_mul Obs.count (grandTotal rows) rows]
  unfold grandTotal at h ⊢
  rw [div_self h, one_mul]

/-- Witness for C7 at a concrete two-row set with Counts 25 and 75. -/
theorem percentage_sums_to_100_witness :
    grandTotal [obsA, obsB] ≠ 0 ∧ (percentValues [obsA, obsB]).sum = 100 :=
  ⟨by norm_num [grandTotal, obsA, obsB],
    percentage_sums_to_100 [obsA, obsB] (by norm_num [grandTotal, obsA, obsB])⟩

/-- C7 counterexample: a non-empty filtered set — one row with
Count 0 — has grand total 0, and its percentage Values do not sum to
100, refuting the claim as stated for every non-empty set. -/
theorem percentage_sum_cex :
    ([zeroObs] : List Obs) ≠ [] ∧ (percentValues [zeroObs]).sum ≠ 100 := by
  refine ⟨by simp, ?_⟩
  norm_num [percentValues, grandTotal, zeroObs]

/-- C8 (amended): unconditionally, the dependency view groups by
(District, Industry_Category) with summed Count and Share equal to the
group count over the district total, and the risk table retains
exactly — membership both ways — the dependency rows whose Share
exceeds 0.6; the pre-threshold Shares of a district sum to 1 provided
that district's total is nonzero — the original claim's unconditional
sum-to-1 fails on a district whose total is 0 (see the
counterexample). -/
theorem dep_share_sum (rows : List Obs) :
    (∀ r : DepRow, r ∈ risk_df rows ↔ r ∈ dep_df rows ∧ r.share > 3 / 5)
    ∧ (∀ r ∈ dep_df rows,
        r.count = ((rows.filter fun o =>
          decide ((o.ids.district, o.ids.industry) = (r.district, r.industry))).map
            Obs.count).sum
        ∧ r.share = r.count / depDistrictTotal rows r.district)
    ∧ ∀ d : String, depDistrictTotal rows d ≠ 0 →
        (((dep_df rows).filter fun r => decide (r.district = d)).map DepRow.share).sum
          = 1 := by
  refine ⟨?_, ?_, ?_⟩
  · intro r
    unfold risk_df
    rw [List.mem_filter]
    simp only [decide_eq_true_eq]
  · intro r hr
    unfold dep_df at hr
    obtain ⟨e, he, rfl⟩ := List.mem_map.1 hr
    unfold groupSum at he
    obtain ⟨k, _, rfl⟩ := List.mem_map.1 he
    exact ⟨by simp, rfl⟩
  · intro d h
    unfold dep_df
    rw [List.filter_map, List.map_map]
    have hpred : ((fun r : DepRow => decide (r.district = d)) ∘
        (fun e : (String × String) × ℚ =>
          DepRow.mk e.1.1 e.1.2 e.2 (e.2 / depDistrictTotal rows e.1.1)))
        = fun e : (String × String) × ℚ => decide (e.1.1 = d) := rfl
    rw [hpred]
    have hsh : ∀ e ∈ (groupSum (fun o => (o.ids.district, o.ids.industry)) Obs.count
        rows).filter fun e => decide (e.1.1 = d),
        (DepRow.share ∘ (fun e : (String × String) × ℚ =>
          DepRow.mk e.1.1 e.1.2 e.2 (e.2 / depDistrictTotal rows e.1.1))) e
          = e.2 / depDistrictTotal rows d := by
      intro e he
      have : e.1.1 = d := of_decide_eq_true (List.mem_filter.1 he).2
      simp [Function.comp, this]
    rw [List.map_congr_left hsh, sum_map_div Prod.snd (depDistrictTotal rows d)]
    exact div_self h

/-- Witness for C8 at a two-industry district with Counts 25 and 75,
discharging the nonzero-district-total hypothesis of the sum-to-1
clause concretely. -/
theorem dep_share_sum_witness :
    depDistrictTotal [obsA, obsB] "Chennai" ≠ 0
    ∧ (((dep_df [obsA, obsB]).filter fun r => decide (r.district = "Chennai")).map
        DepRow.share).sum = 1 :=
  ⟨by simp [depDistrictTotal, groupSum, groupKeys, obsA, obsB]; norm_num,
    (dep_share_sum [obsA, obsB]).2.2 "Chennai"
      (by simp [depDistrictTotal, groupSum, groupKeys, obsA, obsB]; norm_num)⟩

/-- C8 counterexample: a district whose only row has Count 0 has
district total 0; its pre-threshold Shares sum to 0, not 1, refuting
the unconditional sum-to-1 clause. -/
theorem dep_share_sum_cex :
    ¬ ((((dep_df [zeroObs]).filter fun r => decide (r.district = "Chennai")).map
        DepRow.share).sum = 1) := by
  norm_num [dep_df, groupSum, groupKeys, depDistrictTotal, zeroObs]

/-- C2 (amended): when every measure column's name splits with a
recognized worker-class first token (Main_Workers or Marginal_Workers)
and a recognized gender third token (Males, Females or Persons), every
reshaped row's Worker_Type is Main or Marginal and its Gender is Male,
Female or Total.  The original claim also asserted this for
unrecognized tokens, which the reshaper passes through unchanged — the
counterexample refutes that. -/
theorem worker_gender_membership (cols : List String) (rows : List WideRow)
    (h : ∀ c ∈ worker_cols cols,
        ((splitOnDash c)[0]? = some "Main_Workers"
          ∨ (splitOnDash c)[0]? = some "Marginal_Workers")
        ∧ ((splitOnDash c)[2]? = some "Males"
          ∨ (splitOnDash c)[2]? = some "Females"
          ∨ (splitOnDash c)[2]? = some "Persons")) :
    ∀ o ∈ long_data cols rows,
      o.workerType ∈ [some "Main", some "Marginal"]
      ∧ o.gender ∈ [some "Male", some "Female", some "Total"] := by
  intro o ho
  unfold long_data at ho
  obtain ⟨m, hm, hmo⟩ := List.mem_filterMap.1 ho
  have hvar : m.var ∈ worker_cols cols := by
    unfold melt at hm
    obtain ⟨c, hc, hmc⟩ := List.mem_flatMap.1 hm
    obtain ⟨r, _, hrc⟩ := List.mem_map.1 hmc
    rw [← hrc]
    exact hc
  obtain ⟨h0, h2⟩ := h m.var hvar
  cases hcount : m.count with
  | none =>
    unfold toObs at hmo
    rw [hcount] at hmo
    exact absurd hmo (by simp)
  | some q =>
    unfold toObs at hmo
    rw [hcount] at hmo
    obtain rfl := Option.some.inj hmo
    constructor
    · rcases h0 with h0 | h0 <;> simp [h0, mapWorkerType]
    · rcases h2 with h2 | h2 | h2 <;> simp [h2, mapGender]

/-- Witness for C2 at a concrete one-column, one-row wide table with
recognized tokens. -/
theorem worker_gender_membership_witness :
    wfObs ∈ long_data wfCols wfRows
    ∧ (wfObs.workerType ∈ [some "Main", some "Marginal"]
        ∧ wfObs.gender ∈ [some "Male", some "Female", some "Total"]) :=
  ⟨by decide, worker_gender_membership wfCols wfRows (by decide) wfObs (by decide)⟩

/-- C2 counterexample: the measure column `Main_Workers-Rural-Boys`
carries the unrecognized gender token `Boys`, which passes through
unchanged, so the reshaped rows violate the claimed Gender
membership. -/
theorem worker_gender_membership_cex :
    ¬ ∀ o ∈ long_data cexCols cexRows,
        o.workerType ∈ [some "Main", some "Marginal"]
        ∧ o.gender ∈ [some "Male", some "Female", some "Total"] := by
  decide

/-- Witness for C10 at a concrete one-row table whose geography filter
output is non-empty. -/
theorem late_empty_no_signal_witness :
    filtered_data [obsA] ["Tamilnadu"] none (some "Main") (some "Rural") (some "Male") []
      = .ok []
    ∧ grandTotal [] = 0
    ∧ percentValues [] = [] :=
  late_empty_no_signal [obsA] ["Tamilnadu"] none (some "Main") (some "Rural") (some "Male")
    (by simp [districtFilter, stateFilter, obsA])

end HRVisual
